import Mathlib

/-!
Shallow embedding of the local-potential-quantile estimator
(`doubleml/double_ml_lpq.py`, class `DoubleMLLPQ`) for verification of the
natural-language specification.  Machine floats are modelled by exact
rationals `ℚ` (the real-number semantics of the numerical code); numpy
1-D arrays by `List ℚ`; Python exceptions by `Except DmlError`.
-/

/-- Error taxonomy: the Python exception classes raised by the code
(`TypeError`, `ValueError`) and the root-bracketing failure surfaced by the
external Brent solver (`scipy.optimize.root_scalar`, method `brentq`,
raises `ValueError: f(a) and f(b) must have different signs`). -/
inductive DmlError where
  | typeError
  | valueError
  | rootNotBracketed
deriving DecidableEq, Repr

/-- A Python scalar argument, as far as the `isinstance` checks in
`DoubleMLLPQ.__init__` distinguish them.  `bool` is kept separate because in
Python `isinstance(True, float)` is `False` while `isinstance(True, int)` is
`True`. -/
inductive PyVal where
  | float (q : ℚ)
  | int (n : ℤ)
  | str (s : String)
  | bool (b : Bool)
  | pynone
deriving DecidableEq, Repr

/-- Model of `isinstance(v, float)` for a `PyVal`. -/
def PyVal.isFloat : PyVal → Bool
  | .float _ => true
  | _ => false

/-- Model of `np.sign` on a scalar: `-1`, `0`, or `1`. -/
def npSign (q : ℚ) : ℤ :=
  if q < 0 then -1 else if q = 0 then 0 else 1

/-- Model of `np.mean` of a 1-D array. -/
def npMean (l : List ℚ) : ℚ := l.sum / (l.length : ℚ)

/- ------------------------------------------------------------------
Bracket search, `get_bracket_guess` (double_ml_lpq.py lines 309-322):

    max_bracket_length = coef_bounds[1] - coef_bounds[0]
    b_guess = coef_bounds
    delta = 0.1
    s_different = False
    while (not s_different) & (delta <= 1.0):
        a = np.maximum(coef_start - delta * max_bracket_length / 2, coef_bounds[0])
        b = np.minimum(coef_start + delta * max_bracket_length / 2, coef_bounds[1])
        b_guess = (a, b)
        f_a = ipw_score(b_guess[0])
        f_b = ipw_score(b_guess[1])
        s_different = (np.sign(f_a) != np.sign(f_b))
        delta += 0.1
    return s_different, b_guess

In exact arithmetic the loop visits `delta = k/10` for `k = 1, …, 10` and
stops early as soon as the signs at the bracket ends differ.
------------------------------------------------------------------ -/

/-- The candidate bracket at a given `delta`: the interval of half-width
`delta * (hi - lo) / 2` around `start`, clipped to the bounds `(lo, hi)`. -/
def bracketAt (start lo hi delta : ℚ) : ℚ × ℚ :=
  (max (start - delta * (hi - lo) / 2) lo,
   min (start + delta * (hi - lo) / 2) hi)

/-- The test `np.sign(f_a) != np.sign(f_b)` at the ends of a candidate bracket. -/
def hasSignChange (f : ℚ → ℚ) (p : ℚ × ℚ) : Bool :=
  npSign (f p.1) ≠ npSign (f p.2)

/-- The `while` loop of `get_bracket_guess`, iterating over the remaining
`delta` values; `bg` is the current `b_guess`. -/
def bracketGo (f : ℚ → ℚ) (start lo hi : ℚ) : List ℚ → ℚ × ℚ → Bool × (ℚ × ℚ)
  | [], bg => (false, bg)
  | d :: ds, _ =>
    let bg := bracketAt start lo hi d
    if hasSignChange f bg then (true, bg) else bracketGo f start lo hi ds bg

/-- The `delta` values visited by the loop: `0.1, 0.2, …, 1.0`. -/
def codeDeltas : List ℚ :=
  [1/10, 2/10, 3/10, 4/10, 5/10, 6/10, 7/10, 8/10, 9/10, 1]

/-- The function `get_bracket_guess(coef_start, coef_bounds)` (lines 309-322). -/
def get_bracket_guess (f : ℚ → ℚ) (start lo hi : ℚ) : Bool × (ℚ × ℚ) :=
  bracketGo f start lo hi codeDeltas (lo, hi)

/-- Modelled from the spec's words, for refinement comparison only (not from
the source): an expanding-interval search that starts from the same first
half-width and *doubles* the bracket half-width at each step, clipped to the
bounds, until the score changes sign at the bracket endpoints or the full
bounds are exhausted (a half-width `≥ hi - lo` clips to the full bounds). -/
def get_bracket_guess_doubling (f : ℚ → ℚ) (start lo hi : ℚ) : Bool × (ℚ × ℚ) :=
  bracketGo f start lo hi [1/10, 2/10, 4/10, 8/10, 16/10, 32/10] (lo, hi)

/-- The preliminary IPW root-finding step of `DoubleMLLPQ._nuisance_est`
(lines 324-329):

    _, bracket_guess = get_bracket_guess(self._coef_start_val, self._coef_bounds)
    root_res = root_scalar(ipw_score, bracket=bracket_guess, method='brentq')

The sign-change flag returned by `get_bracket_guess` is discarded (`_`), and
the bracket is handed to the external Brent solver unconditionally.  The
solver itself is external (scipy); we model its documented bracket
precondition: it raises (`RootNotBracketed`) exactly when
`f(a) * f(b) > 0`, and otherwise solves inside the bracket — represented
here by returning the accepted bracket. -/
def prelim_ipw_root (f : ℚ → ℚ) (start lo hi : ℚ) : Except DmlError (ℚ × ℚ) :=
  let bg := (get_bracket_guess f start lo hi).2
  if 0 < f bg.1 * f bg.2 then .error .rootNotBracketed
  else .ok bg

/- ------------------------------------------------------------------
Score assembly, `DoubleMLLPQ._compute_score` (lines 194-216) and the
weights of `_compute_score_deriv` (lines 218-241).
------------------------------------------------------------------ -/

/-- numpy element-wise binary operation on two 1-D arrays with numpy's
broadcasting rule: equal lengths operate pointwise; a length-1 array
broadcasts against the other; any other length mismatch is an error
(`ValueError: operands could not be broadcast together`), modelled as
`none`. -/
def bcast2 (f : ℚ → ℚ → ℚ) (a b : List ℚ) : Option (List ℚ) :=
  if a.length = b.length then some (List.zipWith f a b)
  else if a.length = 1 then some (b.map (f a.headI))
  else if b.length = 1 then some (a.map (fun x => f x b.headI))
  else none

/-- numpy fancy indexing `arr[inds]` (indices assumed in range, as they are
for fold index sets). -/
def npIndex (l : List ℚ) (inds : List ℕ) : List ℚ :=
  inds.map (fun i => l.getD i 0)

/-- The score elements dictionary `psi_elements` built at the end of
`_nuisance_est` (lines 386-388): per-observation arrays and the scalar
compliance probability. `ind_d` stores `d == treatment` as 0/1. -/
structure PsiElements where
  ind_d : List ℚ
  pi_z : List ℚ
  pi_du_z0 : List ℚ
  pi_du_z1 : List ℚ
  y : List ℚ
  z : List ℚ
  comp_prob : ℚ
deriving DecidableEq, Repr

/-- Method `DoubleMLLPQ._compute_score(psi_elements, coef, inds)` (lines 194-216).
Note the transcription of lines 204-210: when `inds` is given, every element
is re-assigned restricted to `inds` *except* `pi_z`, which line 206
re-assigns as the full unrestricted array. -/
def compute_score (treatment : ℤ) (quantile : ℚ) (psi : PsiElements)
    (coef : ℚ) (inds : Option (List ℕ)) : Option (List ℚ) :=
  let sign : ℚ := 2 * (treatment : ℚ) - 1
  let ind_d := match inds with | none => psi.ind_d | some is => npIndex psi.ind_d is
  let pi_z := psi.pi_z
  let pi_du_z0 := match inds with | none => psi.pi_du_z0 | some is => npIndex psi.pi_du_z0 is
  let pi_du_z1 := match inds with | none => psi.pi_du_z1 | some is => npIndex psi.pi_du_z1 is
  let y := match inds with | none => psi.y | some is => npIndex psi.y is
  let z := match inds with | none => psi.z | some is => npIndex psi.z is
  do
    let indic ← bcast2 (· * ·) ind_d (y.map (fun yi => if yi ≤ coef then 1 else 0))
    let score1 ← bcast2 (· - ·) pi_du_z1 pi_du_z0
    let zratio ← bcast2 (· / ·) z pi_z
    let resid1 ← bcast2 (· - ·) indic pi_du_z1
    let score2 ← bcast2 (· * ·) zratio resid1
    let zratio0 ← bcast2 (· / ·) (z.map (1 - ·)) (pi_z.map (1 - ·))
    let resid0 ← bcast2 (· - ·) indic pi_du_z0
    let score3 ← bcast2 (· * ·) zratio0 resid0
    let s12 ← bcast2 (· + ·) score1 score2
    let s ← bcast2 (· - ·) s12 score3
    return s.map (fun v => sign * v / psi.comp_prob - quantile)

/-- The inverse-propensity score weights of `_compute_score_deriv`
(line 232): `sign * ((z / pi_z) - (1 - z) / (1 - pi_z)) * ind_d / comp_prob`
(all arrays already restricted to `inds` there, lines 226-230). -/
def score_weights (treatment : ℤ) (comp_prob : ℚ) (z pi_z ind_d : List ℚ) :
    Option (List ℚ) :=
  let sign : ℚ := 2 * (treatment : ℚ) - 1
  do
    let zratio ← bcast2 (· / ·) z pi_z
    let zratio0 ← bcast2 (· / ·) (z.map (1 - ·)) (pi_z.map (1 - ·))
    let diff ← bcast2 (· - ·) zratio zratio0
    let w ← bcast2 (· * ·) diff ind_d
    return w.map (fun v => sign * v / comp_prob)

/-- Lines 233-235: `normalization = score_weights.mean()`; if `normalize`,
`score_weights /= normalization`. -/
def normalized_weights (normalize : Bool) (w : List ℚ) : List ℚ :=
  if normalize then w.map (· / npMean w) else w

/- ------------------------------------------------------------------
Trimming (driver post-processing, lines 371-376).
------------------------------------------------------------------ -/

/-- Modelled from the spec: `_trimm` lives in `doubleml/_utils.py`, which is
not under `src/`; the spec says "Predictions for probability-valued
nuisances are passed through a trimming step: clip to
`[threshold, 1-threshold]` (only the 'truncate' rule is required)". -/
def trimm (preds : List ℚ) (rule : String) (threshold : ℚ) : List ℚ :=
  if rule = "truncate" then
    preds.map (fun p => min (max p threshold) (1 - threshold))
  else preds

/-- The driver's post-processing at the end of a repetition's nuisance
estimation (lines 371-376): every propensity prediction array is trimmed. -/
def trim_propensities (rule : String) (threshold : ℚ)
    (pi_z pi_d_z0 pi_d_z1 pi_du_z0 pi_du_z1 : List ℚ) : List (List ℚ) :=
  [trimm pi_z rule threshold,
   trimm pi_d_z0 rule threshold,
   trimm pi_d_z1 rule threshold,
   trimm pi_du_z0 rule threshold,
   trimm pi_du_z1 rule threshold]

/- ------------------------------------------------------------------
Mutable estimator state read and written by `_nuisance_est`.
------------------------------------------------------------------ -/

/-- The estimator attributes relevant to the preliminary root-find:
`_coef_start_val` and `_coef_bounds`, initialized in `__init__`
(lines 119-122) and read by `get_bracket_guess` at line 324. -/
structure LPQState where
  coef_start_val : ℚ
  coef_bounds : ℚ × ℚ
deriving DecidableEq, Repr

/-- Line 384 of `_nuisance_est`: `self._coef_start_val = np.mean(ipw_vec)` —
the estimator attribute is overwritten with the mean of the per-fold
preliminary IPW estimates of the repetition that just ran. -/
def nuisance_est_update (s : LPQState) (ipw_vec : List ℚ) : LPQState :=
  { s with coef_start_val := npMean ipw_vec }

/-- Line 324, as executed by a (later) repetition: the bracket search starts
from the current value of the `_coef_start_val` attribute. -/
def next_rep_bracket (s : LPQState) (f : ℚ → ℚ) : Bool × (ℚ × ℚ) :=
  get_bracket_guess f s.coef_start_val s.coef_bounds.1 s.coef_bounds.2

/- ------------------------------------------------------------------
Nested preliminary split (lines 269-271).
------------------------------------------------------------------ -/

/-- Lines 270-271 of `_nuisance_est`:

    train_inds_1, train_inds_2 = train_test_split(train_inds, test_size=0.5, random_state=42)
    smpls_prelim = [(train, test) for train, test in KFold(n_splits=self.n_folds).split(train_inds_1)]

`tts` models the external `sklearn.model_selection.train_test_split` as a
function of its seed (`random_state`) and the index list; `kf` models
`KFold(n_splits=k).split` on `n` items (it takes no seed: `shuffle=False`).
`ambient` models the process-global random state of the run; the code never
consults it here — `random_state` is the literal `42`. -/
def prelim_smpls (tts : ℕ → List ℕ → List ℕ × List ℕ)
    (kf : ℕ → ℕ → List (List ℕ × List ℕ))
    (ambient : ℕ) (n_folds : ℕ) (train_inds : List ℕ) :
    (List ℕ × List ℕ) × List (List ℕ × List ℕ) :=
  let p := tts 42 train_inds
  (p, kf n_folds p.1.length)

/- ------------------------------------------------------------------
Construction-time argument checks (`__init__`, lines 93-138, and the
`_check_*` methods, lines 398-472).
------------------------------------------------------------------ -/

/-- Method `DoubleMLLPQ._check_score` (lines 398-407): the score must be the
string `'LPQ'`. -/
def check_score (score : PyVal) : Except DmlError Unit :=
  match score with
  | .str s => if s = "LPQ" then .ok () else .error .valueError
  | _ => .error .typeError

/-- Method `DoubleMLLPQ._check_quantile` (lines 435-442): a float strictly between
0 and 1. -/
def check_quantile (quantile : PyVal) : Except DmlError Unit :=
  match quantile with
  | .float q => if q ≤ 0 ∨ 1 ≤ q then .error .valueError else .ok ()
  | _ => .error .typeError

/-- Method `DoubleMLLPQ._check_treatment` (lines 444-451): an int equal to 0 or 1.
In Python `bool` is a subclass of `int`, so a `bool` passes the
`isinstance(treatment, int)` test (with value 0 or 1). -/
def check_treatment (treatment : PyVal) : Except DmlError Unit :=
  match treatment with
  | .int n => if n ≠ 0 ∧ n ≠ 1 then .error .valueError else .ok ()
  | .bool _ => .ok ()
  | _ => .error .typeError

/-- Method `DoubleMLLPQ._check_bandwidth` (lines 453-460): a float, strictly
positive. -/
def check_bandwidth (bandwidth : PyVal) : Except DmlError Unit :=
  match bandwidth with
  | .float q => if q ≤ 0 then .error .valueError else .ok ()
  | _ => .error .typeError

/-- Method `DoubleMLLPQ._check_trimming` (lines 462-472): the rule must be
`'truncate'`, the threshold a float strictly inside `(0, 0.5)`. -/
def check_trimming (rule threshold : PyVal) : Except DmlError Unit :=
  if rule ≠ .str "truncate" then .error .valueError
  else match threshold with
    | .float t =>
      if t ≤ 0 ∨ 1/2 ≤ t then .error .valueError else .ok ()
    | _ => .error .typeError

/-- The validation sequence run by `DoubleMLLPQ.__init__` (lines 108-127),
in source order.  `data_ok` abstracts the dataset/cluster checks of lines
108-110 (`_check_data` validates the dataset adapter, out of scope here);
`bandwidth` is the value of `self.h` after the default substitution of
lines 103-105; `normalize` is checked by lines 115-117; the trimming check
(line 127, `_check_trimming`) runs last, after the start-value/bounds
computation of lines 119-122 (total in this model).  All checks run inside
the constructor; `fit` is never involved. -/
def lpq_init_checks (data_ok : Bool) (score quantile treatment bandwidth : PyVal)
    (normalize : PyVal) (rule threshold : PyVal) : Except DmlError Unit := do
  if data_ok then pure () else throw .valueError
  check_score score
  check_quantile quantile
  check_treatment treatment
  check_bandwidth bandwidth
  match normalize with
  | .bool _ => pure ()
  | _ => throw .typeError
  check_trimming rule threshold

/-- Lines 103-105 of `__init__`:

    self._h = h
    if self.h is None:
        self._h = np.power(self._dml_data.n_obs, -0.2)

The bandwidth actually used: the supplied value unchanged, or
`n_obs ** (-0.2)` when none is supplied. -/
noncomputable def lpq_resolve_h (h : Option ℝ) (n_obs : ℕ) : ℝ :=
  match h with
  | some v => v
  | none => (n_obs : ℝ) ^ (-(1/5) : ℝ)

/- ------------------------------------------------------------------
Data-derived start value and bounds (`__init__`, lines 119-122).
------------------------------------------------------------------ -/

/-- Line 120: `y_treat = y[d == treatment]`. -/
def y_treat (y d : List ℚ) (treatment : ℚ) : List ℚ :=
  ((y.zip d).filter (fun p => p.2 = treatment)).map (·.1)

/-- Line 121: `self._coef_bounds = (y_treat.min(), y_treat.max())`
(defaulting to 0 on an empty subgroup, where numpy would raise). -/
def lpq_coef_bounds (y d : List ℚ) (treatment : ℚ) : ℚ × ℚ :=
  let yt := y_treat y d treatment
  (yt.foldl min (yt.headD 0), yt.foldl max (yt.headD 0))

/-- Model of `np.quantile(a, q)` with the default linear interpolation: on the sorted
values, position `q * (n - 1)` interpolated between its floor and ceiling
entries. -/
def npQuantile (l : List ℚ) (q : ℚ) : ℚ :=
  let s := l.insertionSort (· ≤ ·)
  let pos := q * ((s.length : ℚ) - 1)
  let lower := ⌊pos⌋.toNat
  let a := s.getD lower 0
  let b := s.getD (lower + 1) a
  a + (pos - (lower : ℚ)) * (b - a)

/-- Line 122: `self._coef_start_val = np.quantile(y_treat, self.quantile)`. -/
def lpq_coef_start_val (y d : List ℚ) (treatment quantile : ℚ) : ℚ :=
  npQuantile (y_treat y d treatment) quantile

/- ------------------------------------------------------------------
Helper lemmas (shared).
------------------------------------------------------------------ -/

/-- The bracket-search loop returns the bracket of the first `delta` with a
sign change, or, if none of the visited `delta`s has one, `false` together
with the last visited bracket. -/
lemma bracketGo_find (f : ℚ → ℚ) (start lo hi : ℚ) :
    ∀ (ds : List ℚ) (bg : ℚ × ℚ),
      bracketGo f start lo hi ds bg =
        match ds.find? (fun d => hasSignChange f (bracketAt start lo hi d)) with
        | some d => (true, bracketAt start lo hi d)
        | none => (false, (ds.map (bracketAt start lo hi)).getLastD bg) := by
  intro ds
  induction ds with
  | nil => intro bg; rfl
  | cons d ds ih =>
    intro bg
    by_cases h : hasSignChange f (bracketAt start lo hi d)
    · simp only [bracketGo, h, if_true]
      rw [@List.find?_cons_of_pos _ (fun d => hasSignChange f (bracketAt start lo hi d)) d ds h]
    · have hstep : bracketGo f start lo hi (d :: ds) bg
          = bracketGo f start lo hi ds (bracketAt start lo hi d) := by
        simp [bracketGo, h]
      rw [hstep, ih,
        @List.find?_cons_of_neg _ (fun d => hasSignChange f (bracketAt start lo hi d)) d ds
          (by simpa using h)]
      cases hfind : ds.find? (fun d => hasSignChange f (bracketAt start lo hi d)) with
      | some d' => simp only [hfind]
      | none =>
        simp only [hfind]
        rw [show List.map (bracketAt start lo hi) (d :: ds)
            = bracketAt start lo hi d :: List.map (bracketAt start lo hi) ds from rfl,
          List.getLastD_cons]

/-- Both endpoints of every candidate bracket lie within the bounds, as long
as the start value does and the half-width is nonnegative. -/
lemma bracketAt_mem_bounds (start lo hi d : ℚ) (hd : 0 ≤ d)
    (h1 : lo ≤ start) (h2 : start ≤ hi) :
    lo ≤ (bracketAt start lo hi d).1 ∧ (bracketAt start lo hi d).1 ≤ hi ∧
    lo ≤ (bracketAt start lo hi d).2 ∧ (bracketAt start lo hi d).2 ≤ hi := by
  have hL : 0 ≤ d * (hi - lo) / 2 := by
    have : (0:ℚ) ≤ hi - lo := by linarith
    positivity
  refine ⟨le_max_right _ _, ?_, ?_, min_le_right _ _⟩
  · apply max_le <;> linarith
  · apply le_min <;> linarith

/-- A positive product forces equal (and nonzero) `np.sign`s. -/
lemma npSign_eq_of_mul_pos {a b : ℚ} (h : 0 < a * b) : npSign a = npSign b := by
  rcases lt_trichotomy a 0 with ha | ha | ha
  · have hb : b < 0 := by nlinarith
    simp [npSign, ha, hb]
  · rw [ha] at h; simp at h
  · have hb : 0 < b := by nlinarith
    simp [npSign, not_lt.mpr ha.le, not_lt.mpr hb.le, ha.ne', hb.ne']

lemma foldl_min_le_init (l : List ℚ) : ∀ a : ℚ, l.foldl min a ≤ a := by
  induction l with
  | nil => intro a; exact le_refl a
  | cons b t ih =>
    intro a
    calc (b :: t).foldl min a = t.foldl min (min a b) := rfl
    _ ≤ min a b := ih _
    _ ≤ a := min_le_left _ _

lemma foldl_min_le (l : List ℚ) : ∀ (a x : ℚ), x ∈ l → l.foldl min a ≤ x := by
  induction l with
  | nil => intro a x hx; cases hx
  | cons b t ih =>
    intro a x hx
    rcases List.mem_cons.mp hx with rfl | hx
    · calc (x :: t).foldl min a = t.foldl min (min a x) := rfl
      _ ≤ min a x := foldl_min_le_init t _
      _ ≤ x := min_le_right _ _
    · exact ih _ x hx

lemma le_foldl_max_init (l : List ℚ) : ∀ a : ℚ, a ≤ l.foldl max a := by
  induction l with
  | nil => intro a; exact le_refl a
  | cons b t ih =>
    intro a
    calc a ≤ max a b := le_max_left _ _
    _ ≤ t.foldl max (max a b) := ih _
    _ = (b :: t).foldl max a := rfl

lemma le_foldl_max (l : List ℚ) : ∀ (a x : ℚ), x ∈ l → x ≤ l.foldl max a := by
  induction l with
  | nil => intro a x hx; cases hx
  | cons b t ih =>
    intro a x hx
    rcases List.mem_cons.mp hx with rfl | hx
    · calc x ≤ max a x := le_max_right _ _
      _ ≤ t.foldl max (max a x) := le_foldl_max_init t _
      _ = (x :: t).foldl max a := rfl
    · exact ih _ x hx

lemma sum_map_div (l : List ℚ) (m : ℚ) : (l.map (· / m)).sum = l.sum / m := by
  induction l with
  | nil => simp
  | cons a t ih => simp [ih, div_add_div_same]

/-- Every entry of a truncate-trimmed array lies in `[t, 1 - t]` for a valid
threshold. -/
lemma trimm_mem (l : List ℚ) (t : ℚ) (h0 : 0 < t) (h1 : t < 1/2) :
    ∀ x ∈ trimm l "truncate" t, t ≤ x ∧ x ≤ 1 - t := by
  intro x hx
  have hx' : x ∈ l.map (fun p => min (max p t) (1 - t)) := by
    simpa [trimm] using hx
  obtain ⟨p, _, hpe⟩ := List.mem_map.mp hx'
  subst hpe
  constructor
  · apply le_min (le_max_right _ _)
    linarith
  · exact min_le_right _ _

/- ------------------------------------------------------------------
Claim theorems.
------------------------------------------------------------------ -/

/-- C1 (counterexample): the score function that is identically zero has no
sign change at the endpoints of any bracket within the bounds `(0, 10)` —
`get_bracket_guess` reports no sign change — yet the preliminary IPW
root-finding step does not fail with the root-not-bracketed error: the
Brent solver's bracket check `f(a) * f(b) > 0` is not triggered and the
solve proceeds (an endpoint is already a root). -/
theorem lpq_C1_counterexample :
    (get_bracket_guess (fun _ => (0 : ℚ)) 5 0 10).1 = false ∧
    prelim_ipw_root (fun _ => (0 : ℚ)) 5 0 10 = .ok (0, 10) := by
  norm_num [prelim_ipw_root, get_bracket_guess, codeDeltas, bracketGo, hasSignChange,
    npSign, bracketAt, max_def, min_def]

/-- C1 (amended): for every score function whose values have a constant
nonzero sign across the supplied bounds (`f x * f y > 0` for all `x`, `y` in
the bounds — in particular no sign change at the endpoints of any bracket),
and every start value within the bounds, the preliminary IPW root-finding
step of `DoubleMLLPQ._nuisance_est` fails with the root-not-bracketed error.
The error surfaces from the external root-finder's own bracket check — the
sign-change flag computed by `get_bracket_guess` is discarded at line 324 —
and a score that is exactly zero at the final bracket endpoints is instead
accepted by the solver. -/
theorem lpq_C1_theorem (f : ℚ → ℚ) (start lo hi : ℚ)
    (hs1 : lo ≤ start) (hs2 : start ≤ hi)
    (hf : ∀ x y, lo ≤ x → x ≤ hi → lo ≤ y → y ≤ hi → 0 < f x * f y) :
    prelim_ipw_root f start lo hi = .error .rootNotBracketed := by
  have hno : ∀ d : ℚ, 0 ≤ d → hasSignChange f (bracketAt start lo hi d) = false := by
    intro d hd
    obtain ⟨ha1, ha2, hb1, hb2⟩ := bracketAt_mem_bounds start lo hi d hd hs1 hs2
    have := npSign_eq_of_mul_pos (hf _ _ ha1 ha2 hb1 hb2)
    simp [hasSignChange, this]
  have hfind : codeDeltas.find? (fun d => hasSignChange f (bracketAt start lo hi d)) = none := by
    rw [List.find?_eq_none]
    intro d hd
    have hd0 : (0 : ℚ) ≤ d := by
      have : d ∈ codeDeltas := hd
      fin_cases this <;> norm_num
    simp [hno d hd0]
  have hbg : get_bracket_guess f start lo hi = (false, bracketAt start lo hi 1) := by
    rw [get_bracket_guess, bracketGo_find, hfind]
    rfl
  obtain ⟨ha1, ha2, hb1, hb2⟩ :=
    bracketAt_mem_bounds start lo hi 1 (by norm_num) hs1 hs2
  have hpos := hf _ _ ha1 ha2 hb1 hb2
  rw [prelim_ipw_root, hbg]
  simp [hpos]

/-- C1 (witness): a concrete instance of the amended claim — the constant
score `1` on bounds `(0, 10)` with start `5` makes the root step fail. -/
theorem lpq_C1_witness :
    (0 : ℚ) ≤ 5 ∧ (5 : ℚ) ≤ 10 ∧
    prelim_ipw_root (fun _ => (1 : ℚ)) 5 0 10 = .error .rootNotBracketed :=
  ⟨by norm_num, by norm_num,
    lpq_C1_theorem (fun _ => (1 : ℚ)) 5 0 10 (by norm_num) (by norm_num)
      (fun x y _ _ _ _ => by norm_num)⟩

/-- C2 (counterexample): the bracket expansion is arithmetic, not doubling.
For the score `x - 19/5` with start `5` and bounds `(0, 10)`, the code's
search finds the sign change at its third step, returning the bracket
`(3.5, 6.5)` (half-width `0.15 * range`), while the spec's doubling search
returns `(3, 7)` (half-width `0.2 * range`).  Moreover for a score with no
sign change and the off-center start `2`, the code's final bracket is
`(0, 7)` — the full bounds `(0, 10)` are never reached, while the doubling
search ends at the full bounds. -/
theorem lpq_C2_counterexample :
    get_bracket_guess (fun x => x - 19/5) 5 0 10 = (true, (7/2, 13/2)) ∧
    get_bracket_guess_doubling (fun x => x - 19/5) 5 0 10 = (true, (3, 7)) ∧
    get_bracket_guess (fun _ => (1 : ℚ)) 2 0 10 = (false, (0, 7)) ∧
    get_bracket_guess_doubling (fun _ => (1 : ℚ)) 2 0 10 = (false, (0, 10)) ∧
    ((7/2 : ℚ), (13/2 : ℚ)) ≠ ((3 : ℚ), (7 : ℚ)) ∧
    ((0 : ℚ), (7 : ℚ)) ≠ ((0 : ℚ), (10 : ℚ)) := by
  refine ⟨?_, ?_, ?_, ?_, by norm_num [Prod.ext_iff], by norm_num [Prod.ext_iff]⟩ <;>
    norm_num [get_bracket_guess, get_bracket_guess_doubling, codeDeltas, bracketGo,
      hasSignChange, npSign, bracketAt, max_def, min_def]

/-- C2 (amended): the bracket search expands arithmetically: it visits the
`delta` values `0.1, 0.2, …, 1.0` in order (increments of `0.1` — the
half-width is `delta * (bound range) / 2`, so it doubles only on the first
step), each bracket clipped to the bounds, and returns the first bracket
whose endpoints have a score sign change, or, if none of the ten increments
has one, `False` with the last bracket (half the bound range around the
start value — the full bounds only when the start is centered).  The bounds
are data-derived: every outcome of the `d == treatment` subgroup lies
within `coef_bounds` (line 121). -/
theorem lpq_C2_theorem :
    (∀ (f : ℚ → ℚ) (start lo hi : ℚ),
      get_bracket_guess f start lo hi =
        match ((List.range 10).map (fun k => ((k : ℚ) + 1) / 10)).find?
            (fun d => hasSignChange f (bracketAt start lo hi d)) with
        | some d => (true, bracketAt start lo hi d)
        | none => (false, bracketAt start lo hi 1))
    ∧ (∀ (y d : List ℚ) (tr x : ℚ), x ∈ y_treat y d tr →
        (lpq_coef_bounds y d tr).1 ≤ x ∧ x ≤ (lpq_coef_bounds y d tr).2) := by
  constructor
  · intro f start lo hi
    have hr : (List.range 10).map (fun k => ((k : ℚ) + 1) / 10) = codeDeltas := by
      norm_num [List.range_succ, codeDeltas]
    rw [hr, get_bracket_guess, bracketGo_find]
    cases codeDeltas.find? (fun d => hasSignChange f (bracketAt start lo hi d)) <;> rfl
  · intro y d tr x hx
    exact ⟨foldl_min_le _ _ _ hx, le_foldl_max _ _ _ hx⟩

/-- C2 (witness): a concrete instance of the bounds part of the amended
claim, at `y = [1, 5, 3]`, `d = [1, 0, 1]`, treatment `1`, outcome `3`. -/
theorem lpq_C2_witness :
    (3 : ℚ) ∈ y_treat [1, 5, 3] [1, 0, 1] 1 ∧
    (lpq_coef_bounds [1, 5, 3] [1, 0, 1] 1).1 ≤ 3 ∧
    (3 : ℚ) ≤ (lpq_coef_bounds [1, 5, 3] [1, 0, 1] 1).2 :=
  have hm : (3 : ℚ) ∈ y_treat [1, 5, 3] [1, 0, 1] 1 := by
    norm_num [y_treat, List.filter]
  ⟨hm, (lpq_C2_theorem.2 [1, 5, 3] [1, 0, 1] 1 3 hm).1,
    (lpq_C2_theorem.2 [1, 5, 3] [1, 0, 1] 1 3 hm).2⟩

/-- C3 (code bug, evaluation at the failing input): `_compute_score` with a
proper subset `inds` does not restrict `pi_z` (line 206), so the element-wise
division `z / pi_z` mixes a restricted `z` with the full-length `pi_z`.
With 3 observations and the fold `inds = [0, 1]`, numpy raises a broadcast
error (modelled as `none`); with the singleton fold `inds = [0]`, the
length-1 arrays broadcast against the full-length `pi_z` and the returned
score has 3 entries instead of one per index in `inds`.  (With `inds =
None` the score has one entry per observation, as intended.) -/
theorem lpq_C3_eval :
    compute_score 1 (1/2)
      ⟨[1, 1, 0], [1/2, 1/2, 1/2], [1/4, 1/4, 1/4], [3/4, 3/4, 3/4],
        [1, 2, 3], [1, 0, 1], 1/2⟩
      2 (some [0, 1]) = none ∧
    (compute_score 1 (1/2)
      ⟨[1, 1, 0], [1/2, 1/2, 1/2], [1/4, 1/4, 1/4], [3/4, 3/4, 3/4],
        [1, 2, 3], [1, 0, 1], 1/2⟩
      2 (some [0])).map List.length = some 3 ∧
    (compute_score 1 (1/2)
      ⟨[1, 1, 0], [1/2, 1/2, 1/2], [1/4, 1/4, 1/4], [3/4, 3/4, 3/4],
        [1, 2, 3], [1, 0, 1], 1/2⟩
      2 none).map List.length = some 3 := by
  norm_num [compute_score, bcast2, npIndex, Option.bind]

/-- C4: after the driver's trimming step (lines 371-376), every entry of
every propensity prediction array lies in `[threshold, 1 - threshold]`, for
every valid trimming threshold `0 < threshold < 0.5` (hence in particular
for `1e-12` and `0.05`). -/
theorem lpq_C4_theorem (t : ℚ) (h0 : 0 < t) (h1 : t < 1/2)
    (pi_z pi_d_z0 pi_d_z1 pi_du_z0 pi_du_z1 : List ℚ) :
    ∀ l ∈ trim_propensities "truncate" t pi_z pi_d_z0 pi_d_z1 pi_du_z0 pi_du_z1,
      ∀ x ∈ l, t ≤ x ∧ x ≤ 1 - t := by
  intro l hl
  have : l = trimm pi_z "truncate" t ∨ l = trimm pi_d_z0 "truncate" t ∨
      l = trimm pi_d_z1 "truncate" t ∨ l = trimm pi_du_z0 "truncate" t ∨
      l = trimm pi_du_z1 "truncate" t := by
    simpa [trim_propensities] using hl
  rcases this with rfl | rfl | rfl | rfl | rfl <;>
    exact trimm_mem _ t h0 h1

/-- C4 (witness): the trimming bound at threshold `1/20 = 0.05` for concrete
prediction arrays containing the extreme probabilities 0 and 1. -/
theorem lpq_C4_witness :
    (0 : ℚ) < 1/20 ∧ (1/20 : ℚ) < 1/2 ∧
    (∀ l ∈ trim_propensities "truncate" (1/20) [0] [1] [1/2] [2/100] [99/100],
      ∀ x ∈ l, (1/20 : ℚ) ≤ x ∧ x ≤ 1 - 1/20) :=
  ⟨by norm_num, by norm_num,
    lpq_C4_theorem (1/20) (by norm_num) (by norm_num) [0] [1] [1/2] [2/100] [99/100]⟩


/-- With every earlier `__init__` check passing, the construction-time
validation reduces to the trimming check of line 127. -/
lemma lpq_init_checks_trimming (rule threshold : PyVal) :
    lpq_init_checks true (.str "LPQ") (.float (1/2)) (.int 1) (.float (1/10))
      (.bool true) rule threshold = check_trimming rule threshold := by
  norm_num [lpq_init_checks, check_score, check_quantile, check_treatment,
    check_bandwidth, Bind.bind, Except.bind, Pure.pure, Except.pure]

/-- The trimming check succeeds exactly on rule `'truncate'` with a float
threshold strictly inside `(0, 1/2)`. -/
lemma check_trimming_ok_iff (rule threshold : PyVal) :
    check_trimming rule threshold = .ok () ↔
      rule = .str "truncate" ∧ ∃ q, threshold = .float q ∧ 0 < q ∧ q < 1/2 := by
  by_cases hr : rule = .str "truncate"
  · subst hr
    cases threshold with
    | float q =>
      rw [check_trimming, if_neg (by simp)]
      by_cases hq : q ≤ 0 ∨ 1/2 ≤ q
      · rw [if_pos hq]
        constructor
        · intro h; exact absurd h (by simp)
        · rintro ⟨-, q', hq', h1, h2⟩
          injection hq' with h
          subst h
          rcases hq with hq | hq <;> linarith
      · rw [if_neg hq]
        push_neg at hq
        exact ⟨fun _ => ⟨rfl, q, rfl, hq.1, hq.2⟩, fun _ => rfl⟩
    | int n =>
      rw [show check_trimming (.str "truncate") (.int n) = .error .typeError from rfl]
      simp
    | str s =>
      rw [show check_trimming (.str "truncate") (.str s) = .error .typeError from rfl]
      simp
    | bool b =>
      rw [show check_trimming (.str "truncate") (.bool b) = .error .typeError from rfl]
      simp
    | pynone =>
      rw [show check_trimming (.str "truncate") .pynone = .error .typeError from rfl]
      simp
  · have hred : check_trimming rule threshold = .error .valueError := by
      unfold check_trimming
      rw [if_pos (by simpa using hr)]
    rw [hred]
    simp [hr]

/-- The trimming check never produces the root-bracketing error: it is a
configuration error (`ValueError`/`TypeError`) or success. -/
lemma check_trimming_ne (rule threshold : PyVal) :
    check_trimming rule threshold ≠ .error .rootNotBracketed := by
  unfold check_trimming
  split
  · simp
  · split
    · split <;> simp
    · simp

/-- C5: with all other constructor arguments valid, construction succeeds on
the trimming check exactly when the rule is the string `'truncate'` and the
threshold is a float strictly inside `(0, 0.5)`; in every other case
construction fails during `__init__` (never at fit time) with a
`ValueError`/`TypeError`-class error — never the root-bracketing error. -/
theorem lpq_C5_theorem (rule threshold : PyVal) :
    (lpq_init_checks true (.str "LPQ") (.float (1/2)) (.int 1) (.float (1/10))
        (.bool true) rule threshold = .ok ()
      ↔ rule = .str "truncate" ∧ ∃ q, threshold = .float q ∧ 0 < q ∧ q < 1/2)
    ∧ lpq_init_checks true (.str "LPQ") (.float (1/2)) (.int 1) (.float (1/10))
        (.bool true) rule threshold ≠ .error .rootNotBracketed := by
  rw [lpq_init_checks_trimming]
  exact ⟨check_trimming_ok_iff rule threshold, check_trimming_ne rule threshold⟩

/-- C6: when no bandwidth is supplied (`h is None`), the bandwidth used for
the kernel-smoothed score derivative is `n_obs ** (-0.2)` — equivalently its
product with `n_obs ** 0.2` is `1` for a positive sample size; when a
bandwidth is supplied, that value is used unchanged. -/
theorem lpq_C6_theorem (n : ℕ) (v : ℝ) (hn : 0 < n) :
    lpq_resolve_h (some v) n = v ∧
    lpq_resolve_h none n * (n : ℝ) ^ ((1/5 : ℝ)) = 1 := by
  refine ⟨rfl, ?_⟩
  have hpos : (0 : ℝ) < (n : ℝ) := by exact_mod_cast hn
  rw [lpq_resolve_h, ← Real.rpow_add hpos]
  norm_num

/-- C6 (witness): at `n_obs = 3` with supplied bandwidth `7`. -/
theorem lpq_C6_witness :
    0 < 3 ∧ lpq_resolve_h (some 7) 3 = 7 ∧
    lpq_resolve_h none 3 * (3 : ℝ) ^ ((1/5 : ℝ)) = 1 :=
  ⟨by norm_num, (lpq_C6_theorem 3 7 (by norm_num)).1, (lpq_C6_theorem 3 7 (by norm_num)).2⟩

/-- C7: whenever the inverse-propensity score weights of
`_compute_score_deriv` are computed (a nonempty array with nonzero sample
mean), the normalized weights used when `normalize` is `True` have sample
mean exactly one, and with `normalize` `False` the weights are used
unscaled. -/
theorem lpq_C7_theorem (treatment : ℤ) (comp_prob : ℚ) (z pi_z ind_d : List ℚ)
    (w : List ℚ) (hw : score_weights treatment comp_prob z pi_z ind_d = some w)
    (hne : w ≠ []) (hm : npMean w ≠ 0) :
    npMean (normalized_weights true w) = 1 ∧ normalized_weights false w = w := by
  refine ⟨?_, rfl⟩
  have hlen : ((w.length : ℚ)) ≠ 0 := by
    have : w.length ≠ 0 := fun h => hne (List.length_eq_zero.mp h)
    exact_mod_cast this
  have hsum : w.sum ≠ 0 := by
    intro h
    exact hm (by rw [npMean, h, zero_div])
  rw [normalized_weights, if_pos rfl, npMean, sum_map_div, List.length_map, npMean]
  field_simp

/-- C7 (witness): concrete weights `[2, 0]` arising from
`score_weights 1 1 [1,0] [1/2,1/2] [1,0]`. -/
theorem lpq_C7_witness :
    score_weights 1 1 [1, 0] [1/2, 1/2] [1, 0] = some [2, 0] ∧
    ([2, 0] : List ℚ) ≠ [] ∧ npMean [2, 0] ≠ 0 ∧
    npMean (normalized_weights true [2, 0]) = 1 ∧
    normalized_weights false ([2, 0] : List ℚ) = [2, 0] :=
  have hw : score_weights 1 1 [1, 0] [1/2, 1/2] [1, 0] = some [2, 0] := by
    norm_num [score_weights, bcast2, Option.bind]
  have hne : ([2, 0] : List ℚ) ≠ [] := by simp
  have hm : npMean ([2, 0] : List ℚ) ≠ 0 := by norm_num [npMean]
  ⟨hw, hne, hm, (lpq_C7_theorem 1 1 [1, 0] [1/2, 1/2] [1, 0] [2, 0] hw hne hm).1,
    (lpq_C7_theorem 1 1 [1, 0] [1/2, 1/2] [1, 0] [2, 0] hw hne hm).2⟩

/-- C8 (counterexample): `_nuisance_est` does modify an estimator attribute
that a later repetition's root-finding reads: starting from
`_coef_start_val = 0`, a repetition whose per-fold preliminary IPW estimates
are `[1, 3]` overwrites it with their mean `2` (line 384), which the next
repetition's bracket search reads (line 324). -/
theorem lpq_C8_counterexample :
    (nuisance_est_update ⟨0, (0, 10)⟩ [1, 3]).coef_start_val ≠
      (⟨0, (0, 10)⟩ : LPQState).coef_start_val ∧
    (nuisance_est_update ⟨0, (0, 10)⟩ [1, 3]).coef_start_val = 2 := by
  norm_num [nuisance_est_update, npMean]

/-- C8 (amended): `_nuisance_est` mutates exactly the `_coef_start_val`
attribute — it overwrites it with the mean of the repetition's per-fold
preliminary IPW estimates, leaving `_coef_bounds` unchanged — and the next
repetition's bracket search therefore starts from that mean: repetitions
share mutable state and are order-dependent, not independent. -/
theorem lpq_C8_theorem (s : LPQState) (v : List ℚ) (f : ℚ → ℚ) :
    (nuisance_est_update s v).coef_start_val = npMean v ∧
    (nuisance_est_update s v).coef_bounds = s.coef_bounds ∧
    next_rep_bracket (nuisance_est_update s v) f =
      get_bracket_guess f (npMean v) s.coef_bounds.1 s.coef_bounds.2 :=
  ⟨rfl, rfl, rfl⟩

/-- C9: the nested preliminary split inside each fold (lines 270-271) is
deterministic given the fold's train indices: `train_test_split` is called
with the hard-coded `random_state=42` and `KFold` with `shuffle=False`
(no seed), so the result does not depend on the ambient random state of the
run — two runs with identical data and fold indices produce identical
splits, whatever the external split primitives are. -/
theorem lpq_C9_theorem (tts : ℕ → List ℕ → List ℕ × List ℕ)
    (kf : ℕ → ℕ → List (List ℕ × List ℕ)) (ambient1 ambient2 : ℕ)
    (n_folds : ℕ) (train_inds : List ℕ) :
    prelim_smpls tts kf ambient1 n_folds train_inds =
      prelim_smpls tts kf ambient2 n_folds train_inds := rfl

/-- C10: an explicitly supplied bandwidth that is not a float makes
construction fail with a `TypeError`, and a float bandwidth `≤ 0` with a
`ValueError`, both raised by the `__init__` validation sequence (before any
fitting). -/
theorem lpq_C10_theorem (b : PyVal) :
    (b.isFloat = false →
      lpq_init_checks true (.str "LPQ") (.float (1/2)) (.int 1) b (.bool true)
        (.str "truncate") (.float (1/100)) = .error .typeError)
    ∧ (∀ q : ℚ, b = .float q → q ≤ 0 →
      lpq_init_checks true (.str "LPQ") (.float (1/2)) (.int 1) b (.bool true)
        (.str "truncate") (.float (1/100)) = .error .valueError) := by
  constructor
  · intro hb
    have hcb : check_bandwidth b = .error .typeError := by
      cases b with
      | float q => simp [PyVal.isFloat] at hb
      | int n => rfl
      | str s => rfl
      | bool v => rfl
      | pynone => rfl
    norm_num [lpq_init_checks, check_score, check_quantile, check_treatment, hcb,
      Bind.bind, Except.bind, Pure.pure, Except.pure]
  · rintro q rfl hq
    have hcb : check_bandwidth (.float q) = .error .valueError := by
      rw [check_bandwidth, if_pos hq]
    norm_num [lpq_init_checks, check_score, check_quantile, check_treatment, hcb,
      Bind.bind, Except.bind, Pure.pure, Except.pure]

/-- C10 (witness): the integer bandwidth `3` fails with `TypeError`; the
float bandwidth `-1` fails with `ValueError`. -/
theorem lpq_C10_witness :
    (PyVal.isFloat (.int 3) = false ∧
      lpq_init_checks true (.str "LPQ") (.float (1/2)) (.int 1) (.int 3) (.bool true)
        (.str "truncate") (.float (1/100)) = .error .typeError)
    ∧ ((-1 : ℚ) ≤ 0 ∧
      lpq_init_checks true (.str "LPQ") (.float (1/2)) (.int 1) (.float (-1)) (.bool true)
        (.str "truncate") (.float (1/100)) = .error .valueError) :=
  ⟨⟨rfl, (lpq_C10_theorem (.int 3)).1 rfl⟩,
    ⟨by norm_num, (lpq_C10_theorem (.float (-1))).2 (-1) rfl (by norm_num)⟩⟩
